import Mathlib

/-!
# Verification of `src/database/init_db.py`

Shallow embedding of the SQLite convergence script `init_db.py`.

The script issues a fixed sequence of SQL statements against a SQLite
database through Python's `sqlite3` module:

1. `CREATE TABLE IF NOT EXISTS app_info (...)`
2. `CREATE TABLE IF NOT EXISTS users (...)`
3. `_ensure_notes_schema`: create `notes` if absent, otherwise
   `ALTER TABLE notes ADD COLUMN c TEXT` for each of the four non-id
   descriptor columns missing from a snapshot of the existing columns
4. four `INSERT OR REPLACE INTO app_info (key, value) VALUES (?, ?)`
5. `conn.commit()`

We model a SQLite database as a list of tables; a table has a name, an
ordered column list, rows (value lists positionally aligned with the
columns) and the `sqlite_sequence` counter backing `AUTOINCREMENT`.

Transaction semantics follow Python `sqlite3` in its default
(legacy, `isolation_level = ""`) mode: the module opens an implicit
transaction only before a DML statement (INSERT/UPDATE/DELETE/REPLACE);
DDL statements executed while no transaction is open run in autocommit
mode and persist immediately.  In this script all DDL precedes all DML,
so the CREATE/ALTER statements apply directly to the durable state, the
four seeding statements accumulate in the implicit transaction, and the
single `conn.commit()` persists them; closing the connection after a
failure discards the uncommitted transaction.
-/

namespace InitDb

/-- A SQLite value as used by the script: NULL, an integer (rowids),
a text string, or a timestamp produced by `CURRENT_TIMESTAMP`. -/
inductive Value where
  | null : Value
  | int (n : Nat) : Value
  | text (s : String) : Value
  | ts (t : Nat) : Value
deriving DecidableEq, Repr

/-- The only column default appearing in the script's schema:
`DEFAULT CURRENT_TIMESTAMP`. -/
inductive Dflt where
  | currentTimestamp : Dflt
deriving DecidableEq, Repr

/-- A column declaration: name, declared type, NOT NULL flag,
`INTEGER PRIMARY KEY AUTOINCREMENT` flag, UNIQUE flag, default. -/
structure ColumnDef where
  name : String
  type : String
  notnull : Bool
  pk : Bool
  uniq : Bool
  dflt : Option Dflt
deriving DecidableEq, Repr

/-- A live table: name, ordered columns, rows (each row positionally
aligned with `columns`), and the autoincrement sequence counter. -/
structure Table where
  name : String
  columns : List ColumnDef
  rows : List (List Value)
  seq : Nat
deriving DecidableEq, Repr

/-- A live database: the list of its tables, in creation order. -/
abbrev Database := List Table

/-- Catalog lookup (`sqlite_master`): the table with the given name. -/
def getTable (db : Database) (n : String) : Option Table :=
  db.find? (fun t => t.name == n)

/-- Replace the table named `n` by `f` applied to it. -/
def updateTable (db : Database) (n : String) (f : Table → Table) : Database :=
  db.map (fun t => if t.name == n then f t else t)

/-- `_table_exists(cursor, table_name)` (init_db.py lines 47-53):
`SELECT 1 FROM sqlite_master WHERE type='table' AND name = ?`. -/
def table_exists (db : Database) (n : String) : Bool :=
  (getTable db n).isSome

/-- `_get_existing_columns(cursor, table_name)` (init_db.py lines 34-44):
empty if the table is absent from `sqlite_master`, otherwise the column
names from `PRAGMA table_info`. -/
def get_existing_columns (db : Database) (n : String) : List String :=
  match getTable db n with
  | none => []
  | some tb => tb.columns.map ColumnDef.name

/-- `CREATE TABLE IF NOT EXISTS n (cols)`: no-op when a table named `n`
exists (whatever its schema), otherwise create it empty with sequence 0. -/
def createTableIfNotExists (db : Database) (n : String) (cols : List ColumnDef) : Database :=
  if table_exists db n then db else db ++ [⟨n, cols, [], 0⟩]

/-- `ALTER TABLE tname ADD COLUMN col`: fails if the table is missing or
the column name already exists; otherwise appends the column and pads
every existing row with NULL (the added columns carry no default). -/
def addColumn (db : Database) (tname : String) (col : ColumnDef) : Except String Database :=
  match getTable db tname with
  | none => .error ("no such table: " ++ tname)
  | some tb =>
    if (tb.columns.map ColumnDef.name).contains col.name then
      .error ("duplicate column name: " ++ col.name)
    else
      .ok (updateTable db tname (fun t =>
        { t with columns := t.columns ++ [col],
                 rows := t.rows.map (fun r => r ++ [Value.null]) }))

/-- Value a column takes when the INSERT names no value for it: the next
autoincrement rowid for the INTEGER PRIMARY KEY column, the current
timestamp for a `DEFAULT CURRENT_TIMESTAMP` column, NULL otherwise. -/
def defaultValue (now : Nat) (nextId : Nat) (c : ColumnDef) : Value :=
  if c.pk then .int nextId
  else
    match c.dflt with
    | some .currentTimestamp => .ts now
    | none => .null

/-- The row an `INSERT ... (cols) VALUES (vals)` stores in table `tb`. -/
def buildRow (now : Nat) (tb : Table) (cols : List String) (vals : List Value) : List Value :=
  tb.columns.map (fun c =>
    match (cols.zip vals).find? (fun p => p.1 == c.name) with
    | some p => p.2
    | none => defaultValue now (tb.seq + 1) c)

/-- `OR REPLACE` conflict test: an existing row conflicts with the new
row when they agree on a PRIMARY KEY or UNIQUE column at a non-NULL
value (SQLite: NULLs never compare equal for uniqueness). -/
def rowConflicts (tb : Table) (newRow oldRow : List Value) : Bool :=
  (tb.columns.zip (newRow.zip oldRow)).any (fun p =>
    (p.1.pk || p.1.uniq) && !(p.2.1 == Value.null) && p.2.1 == p.2.2)

/-- NOT NULL check for the inserted row (the rowid column autoassigns,
so it is exempt). -/
def notNullViolation (tb : Table) (row : List Value) : Bool :=
  (tb.columns.zip row).any (fun p => p.1.notnull && !p.1.pk && p.2 == Value.null)

/-- `INSERT OR REPLACE INTO tname (cols) VALUES (vals)`: fails if the
table or a named column is missing or NOT NULL is violated; otherwise
deletes every conflicting row, appends the new row (fresh autoincrement
rowid) and advances the sequence counter. -/
def insertOrReplace (now : Nat) (db : Database) (tname : String)
    (cols : List String) (vals : List Value) : Except String Database :=
  match getTable db tname with
  | none => .error ("no such table: " ++ tname)
  | some tb =>
    match cols.find? (fun c => !((tb.columns.map ColumnDef.name).contains c)) with
    | some c => .error ("table " ++ tname ++ " has no column named " ++ c)
    | none =>
      let newRow := buildRow now tb cols vals
      if notNullViolation tb newRow then
        .error "NOT NULL constraint failed"
      else
        .ok (updateTable db tname (fun t =>
          { t with rows := t.rows.filter (fun r => !rowConflicts t newRow r) ++ [newRow],
                   seq := t.seq + 1 }))

/-- Columns of `app_info` (init_db.py lines 118-127). -/
def appInfoCols : List ColumnDef :=
  [⟨"id", "INTEGER", false, true, false, none⟩,
   ⟨"key", "TEXT", true, false, true, none⟩,
   ⟨"value", "TEXT", false, false, false, none⟩,
   ⟨"created_at", "TIMESTAMP", false, false, false, some .currentTimestamp⟩]

/-- Columns of `users` (init_db.py lines 130-139). -/
def usersCols : List ColumnDef :=
  [⟨"id", "INTEGER", false, true, false, none⟩,
   ⟨"username", "TEXT", true, false, true, none⟩,
   ⟨"email", "TEXT", true, false, true, none⟩,
   ⟨"created_at", "TIMESTAMP", false, false, false, some .currentTimestamp⟩]

/-- Columns of `notes` on the create path (init_db.py lines 65-75):
title, content, created_at, updated_at all NOT NULL. -/
def notesCols : List ColumnDef :=
  [⟨"id", "INTEGER", false, true, false, none⟩,
   ⟨"title", "TEXT", true, false, false, none⟩,
   ⟨"content", "TEXT", true, false, false, none⟩,
   ⟨"created_at", "TEXT", true, false, false, none⟩,
   ⟨"updated_at", "TEXT", true, false, false, none⟩]

/-- A migration-path column: `ALTER TABLE notes ADD COLUMN cname TEXT`
adds it plain TEXT — nullable, no constraint, no default. -/
def textColumn (cname : String) : ColumnDef :=
  ⟨cname, "TEXT", false, false, false, none⟩

/-- Sequence two statements, remembering the database state reached
before a failing statement (the state the failure leaves behind). -/
def bindSt (x : Except (Database × String) Database)
    (f : Database → Except String Database) : Except (Database × String) Database :=
  x.bind (fun d =>
    match f d with
    | .ok d2 => .ok d2
    | .error e => .error (d, e))

/-- One `if cname not in existing_cols: ALTER TABLE notes ADD COLUMN`
step of `_ensure_notes_schema` (init_db.py lines 86-93), against the
snapshot `existing_cols` taken before any column was added. -/
def migStep (existing_cols : List String) (cname : String)
    (acc : Except (Database × String) Database) : Except (Database × String) Database :=
  if existing_cols.contains cname then acc
  else bindSt acc (fun d => addColumn d "notes" (textColumn cname))

/-- `_ensure_notes_schema(cursor)` (init_db.py lines 56-93): create
`notes` with the full descriptor when absent; otherwise snapshot the
existing columns once and add each of title, content, created_at,
updated_at that the snapshot lacks, as a plain nullable TEXT column. -/
def ensureNotesSchema (db : Database) : Except (Database × String) Database :=
  if !(table_exists db "notes") then
    .ok (createTableIfNotExists db "notes" notesCols)
  else
    let existing_cols := get_existing_columns db "notes"
    migStep existing_cols "updated_at" (migStep existing_cols "created_at"
      (migStep existing_cols "content" (migStep existing_cols "title" (.ok db))))

/-- The four key/value pairs seeded on every run (init_db.py 145-160). -/
def seedPairs : List (String × String) :=
  [("project_name", "database"), ("version", "0.1.0"),
   ("author", "John Doe"), ("description", "")]

/-- One seeding statement:
`INSERT OR REPLACE INTO app_info (key, value) VALUES (?, ?)`. -/
def seedOne (now : Nat) (kv : String × String) (db : Database) : Except String Database :=
  insertOrReplace now db "app_info" ["key", "value"] [.text kv.1, .text kv.2]

/-- The four seeding statements of init_db.py lines 145-160, in order. -/
def seedAll (now : Nat) (db : Database) : Except (Database × String) Database :=
  bindSt (bindSt (bindSt (bindSt (.ok db)
    (seedOne now ("project_name", "database")))
    (seedOne now ("version", "0.1.0")))
    (seedOne now ("author", "John Doe")))
    (seedOne now ("description", ""))

/-- Connection state: the durable (committed) database and the pending
state of the implicit transaction, when one is open. -/
structure ConnState where
  committed : Database
  pending : Option Database
deriving DecidableEq, Repr

/-- `conn.commit()`: the pending transaction state becomes durable. -/
def commitConn (s : ConnState) : ConnState :=
  ⟨s.pending.getD s.committed, none⟩

/-- The convergence batch of init_db.py lines 114-162 on a connection to
database `db`, with `now` the value of `CURRENT_TIMESTAMP` during the
run.  DDL (the two CREATEs and `_ensure_notes_schema`) executes in
autocommit mode — it lands in `committed` directly; the four seeding
statements are DML and accumulate in the implicit transaction, which the
final `conn.commit()` persists.  On a statement failure the script dies
with the exception and the connection is never committed, so the error
carries the connection state at that point. -/
def runConverge (now : Nat) (db : Database) : Except (ConnState × String) ConnState :=
  match ensureNotesSchema (createTableIfNotExists
      (createTableIfNotExists db "app_info" appInfoCols) "users" usersCols) with
  | .error (dfail, e) => .error (⟨dfail, none⟩, e)
  | .ok d3 =>
    match seedAll now d3 with
    | .error (dpart, e) => .error (⟨d3, some dpart⟩, e)
    | .ok d4 => .ok (commitConn ⟨d3, some d4⟩)

/-- The database a successful run leaves behind, or the error message. -/
def converge (now : Nat) (db : Database) : Except String Database :=
  match runConverge now db with
  | .ok s => .ok s.committed
  | .error (_, e) => .error e

/-- The durable database after the run, successful or not: a failed run
leaves the committed state, the open transaction being discarded when
the connection closes without commit. -/
def persistedAfter (now : Nat) (db : Database) : Database :=
  match runConverge now db with
  | .ok s => s.committed
  | .error (s, _) => s.committed

/-- The on-disk situation the script finds: no file (`sqlite3.connect`
creates an empty database), a valid database file, or an existing file
that is not a valid database. -/
inductive DbFile where
  | absent : DbFile
  | valid (db : Database) : DbFile
  | corrupt : DbFile
deriving DecidableEq, Repr

/-- The accessibility probe (init_db.py lines 99-109): for an existing
file, `connect` + `SELECT 1` inside try/except; a corrupt file makes the
probe raise and the except clause prints a warning and swallows the
exception. -/
def accessProbe : DbFile → Option String
  | .corrupt => some "Warning: Database exists but may be corrupted"
  | _ => none

/-- The convergence batch as attempted on each kind of file: on a
corrupt file every statement raises, so the very first CREATE TABLE
fails with SQLite's "file is not a database" and nothing persists. -/
def runOnFile (now : Nat) : DbFile → Except (ConnState × String) ConnState
  | .corrupt => .error (⟨[], none⟩, "file is not a database")
  | .absent => runConverge now []
  | .valid db => runConverge now db

/-- The script top level (init_db.py lines 96-162): run the probe —
its outcome only produces console output — then, unconditionally,
attempt the convergence batch. -/
def scriptRun (now : Nat) (f : DbFile) : Option String × Except (ConnState × String) ConnState :=
  (accessProbe f, runOnFile now f)

/-- Schema projection of a database: each table's name and columns. -/
def schemaOf (db : Database) : List (String × List ColumnDef) :=
  db.map (fun t => (t.name, t.columns))

/-- Index of the column named `c` in table `tb`. -/
def colIndex (tb : Table) (c : String) : Option Nat :=
  tb.columns.findIdx? (fun cd => cd.name == c)

/-- The value row `r` of table `tb` holds in the column named `c`. -/
def rowVal (tb : Table) (c : String) (r : List Value) : Option Value :=
  (colIndex tb c).bind r.get?

/-- The rows of `app_info` (empty if the table is absent). -/
def appInfoRows (db : Database) : List (List Value) :=
  match getTable db "app_info" with
  | none => []
  | some tb => tb.rows

/-- The (key, value) projection of `app_info`'s rows. -/
def appInfoKV (db : Database) : List (Option Value × Option Value) :=
  match getTable db "app_info" with
  | none => []
  | some tb => tb.rows.map (fun r => (rowVal tb "key" r, rowVal tb "value" r))

/-- Number of `app_info` rows holding text `k` in the key column. -/
def countKey (db : Database) (k : String) : Nat :=
  match getTable db "app_info" with
  | none => 0
  | some tb => (tb.rows.filter (fun r => rowVal tb "key" r == some (.text k))).length

/-! ## Catalog lemmas -/

theorem getTable_eq_some_name {db : Database} {n : String} {tb : Table}
    (h : getTable db n = some tb) : tb.name = n := by
  have := List.find?_some h
  simpa using this

theorem getTable_updateTable (db : Database) (n : String) (f : Table → Table)
    (hf : ∀ t, (f t).name = t.name) (m : String) :
    getTable (updateTable db n f) m =
      (getTable db m).map (fun t => if t.name == n then f t else t) := by
  unfold getTable updateTable
  rw [List.find?_map]
  have hp : ((fun t : Table => t.name == m) ∘ fun t => if (t.name == n) = true then f t else t)
      = (fun t : Table => t.name == m) := by
    funext t
    simp only [Function.comp_apply]
    congr 1
    split
    · exact hf t
    · rfl
  rw [hp]

theorem getTable_updateTable_ne {db : Database} {n : String} {f : Table → Table}
    (hf : ∀ t, (f t).name = t.name) {m : String} (hm : m ≠ n) :
    getTable (updateTable db n f) m = getTable db m := by
  rw [getTable_updateTable db n f hf m]
  cases h : getTable db m with
  | none => rfl
  | some tb =>
    have hn := getTable_eq_some_name h
    simp [hn, hm]

theorem getTable_updateTable_self {db : Database} {n : String} {f : Table → Table}
    (hf : ∀ t, (f t).name = t.name) {tb : Table} (h : getTable db n = some tb) :
    getTable (updateTable db n f) n = some (f tb) := by
  rw [getTable_updateTable db n f hf n]
  have hn := getTable_eq_some_name h
  simp [h, hn]

theorem createTIN_of_exists {db : Database} {n : String} {cols : List ColumnDef}
    (h : table_exists db n = true) : createTableIfNotExists db n cols = db := by
  simp [createTableIfNotExists, h]

theorem getTable_append_single (db : Database) (t : Table) (m : String) :
    getTable (db ++ [t]) m = (getTable db m).or (if t.name == m then some t else none) := by
  simp only [getTable, List.find?_append]
  congr 1
  simp only [List.find?]
  split <;> simp_all

theorem getTable_createTIN_ne {db : Database} {n : String} {cols : List ColumnDef}
    {m : String} (hm : m ≠ n) :
    getTable (createTableIfNotExists db n cols) m = getTable db m := by
  unfold createTableIfNotExists
  split
  · rfl
  · rw [getTable_append_single]
    have hnm : n ≠ m := fun hh => hm hh.symm
    simp [hnm]

theorem table_exists_createTIN_ne {db : Database} {n : String} {cols : List ColumnDef}
    {m : String} (hm : m ≠ n) :
    table_exists (createTableIfNotExists db n cols) m = table_exists db m := by
  simp [table_exists, getTable_createTIN_ne hm]

theorem getTable_createTIN_absent {db : Database} {n : String} {cols : List ColumnDef}
    (h : table_exists db n = false) :
    getTable (createTableIfNotExists db n cols) n = some ⟨n, cols, [], 0⟩ := by
  unfold createTableIfNotExists
  rw [if_neg (by simp [h])]
  rw [getTable_append_single]
  have hnone : getTable db n = none := by
    simp only [table_exists, Option.isSome] at h
    split at h
    · simp_all
    · assumption
  simp [hnone]

/-! ## `ALTER TABLE ADD COLUMN` and migration-step lemmas -/

theorem addColumn_ok {db : Database} {tname : String} {col : ColumnDef} {tb : Table}
    (hget : getTable db tname = some tb)
    (hc : (tb.columns.map ColumnDef.name).contains col.name = false) :
    addColumn db tname col = .ok (updateTable db tname (fun t =>
      { t with columns := t.columns ++ [col],
               rows := t.rows.map (fun r => r ++ [Value.null]) })) := by
  simp only [addColumn, hget]
  rw [hc]
  simp

/-- The database relation maintained across the migration steps of
`_ensure_notes_schema`: relative to the snapshot database `db0` whose
`notes` table is `tb0`, the current database agrees with `db0` outside
`notes`, and `notes` has gained exactly the columns in `added` (plain
TEXT), its rows padded with NULLs accordingly. -/
def MigInv (db0 : Database) (tb0 : Table) (d : Database) (added : List String) : Prop :=
  (∀ m, m ≠ "notes" → getTable d m = getTable db0 m) ∧
  getTable d "notes" = some
    ⟨tb0.name, tb0.columns ++ added.map textColumn,
     tb0.rows.map (fun r => r ++ List.replicate added.length Value.null), tb0.seq⟩

theorem migStep_ok {db0 : Database} {tb0 : Table} (hga : getTable db0 "notes" = some tb0)
    {d : Database} {added : List String} (cname : String)
    (hinv : MigInv db0 tb0 d added) (hna : cname ∉ added) :
    ∃ d2 added2,
      migStep (get_existing_columns db0 "notes") cname (.ok d) = .ok d2 ∧
      MigInv db0 tb0 d2 added2 ∧
      added ⊆ added2 ∧ added2 ⊆ added ++ [cname] ∧
      (cname ∈ tb0.columns.map ColumnDef.name ∨ cname ∈ added2) := by
  obtain ⟨hoth, hnotes⟩ := hinv
  have hsnap : get_existing_columns db0 "notes" = tb0.columns.map ColumnDef.name := by
    simp [get_existing_columns, hga]
  by_cases hmem : cname ∈ tb0.columns.map ColumnDef.name
  · refine ⟨d, added, ?_, ⟨hoth, hnotes⟩, List.Subset.refl _,
      fun x hx => List.mem_append_left _ hx, Or.inl hmem⟩
    simp [migStep, hsnap, hmem]
  · have hcontains : ((⟨tb0.name, tb0.columns ++ added.map textColumn,
        tb0.rows.map (fun r => r ++ List.replicate added.length Value.null), tb0.seq⟩ :
        Table).columns.map ColumnDef.name).contains (textColumn cname).name = false := by
      simp only [List.map_append, List.map_map]
      have hid : List.map (ColumnDef.name ∘ textColumn) added = added := by
        simp [Function.comp_def, textColumn]
      rw [hid]
      simp [textColumn, List.mem_append, hmem, hna]
    have hadd := addColumn_ok hnotes hcontains
    have hfname : ∀ t : Table, ((fun t : Table =>
        { t with columns := t.columns ++ [textColumn cname],
                 rows := t.rows.map (fun r => r ++ [Value.null]) }) t).name = t.name :=
      fun _ => rfl
    refine ⟨updateTable d "notes" (fun t =>
        { t with columns := t.columns ++ [textColumn cname],
                 rows := t.rows.map (fun r => r ++ [Value.null]) }),
      added ++ [cname], ?_, ⟨?_, ?_⟩, fun x hx => List.mem_append_left _ hx,
      List.Subset.refl _, Or.inr (by simp)⟩
    · simp [migStep, hsnap, hmem, bindSt, Except.bind, hadd]
    · intro m hm
      rw [getTable_updateTable_ne hfname hm]
      exact hoth m hm
    · rw [getTable_updateTable_self hfname hnotes]
      have hcols2 : (tb0.columns ++ added.map textColumn) ++ [textColumn cname]
          = tb0.columns ++ (added ++ [cname]).map textColumn := by
        rw [List.map_append, List.append_assoc]
        rfl
      have hrows2 : (tb0.rows.map (fun r => r ++ List.replicate added.length Value.null)).map
            (fun r => r ++ [Value.null])
          = tb0.rows.map (fun r => r ++ List.replicate (added ++ [cname]).length Value.null) := by
        rw [List.map_map]
        apply List.map_congr_left
        intro r _
        simp only [Function.comp_apply, List.append_assoc]
        congr 1
        rw [← List.replicate_succ']
        congr 1
        simp
      simp only [Option.some.injEq]
      exact congrArg₂ (fun c r => (⟨tb0.name, c, r, tb0.seq⟩ : Table)) hcols2 hrows2

theorem ensureNotes_absent_spec {db : Database} (h : table_exists db "notes" = false) :
    ensureNotesSchema db = .ok (db ++ [⟨"notes", notesCols, [], 0⟩]) := by
  unfold ensureNotesSchema
  rw [if_pos (by simp [h])]
  unfold createTableIfNotExists
  rw [if_neg (by simp [h])]

theorem ensureNotes_exists_spec {db : Database} {tb0 : Table}
    (hga : getTable db "notes" = some tb0) :
    ∃ d4 added, ensureNotesSchema db = .ok d4 ∧ MigInv db tb0 d4 added ∧
      added ⊆ ["title", "content", "created_at", "updated_at"] ∧
      (∀ c ∈ (["title", "content", "created_at", "updated_at"] : List String),
        c ∈ tb0.columns.map ColumnDef.name ∨ c ∈ added) := by
  have hex : table_exists db "notes" = true := by simp [table_exists, hga]
  have hinv0 : MigInv db tb0 db [] := by
    refine ⟨fun m _ => rfl, ?_⟩
    simpa using hga
  obtain ⟨d1, a1, hs1, hinv1, hsub1l, hsub1r, hc1⟩ := migStep_ok hga "title" hinv0 (by simp)
  have ha1 : a1 ⊆ ["title"] := by simpa using hsub1r
  obtain ⟨d2, a2, hs2, hinv2, hsub2l, hsub2r, hc2⟩ := migStep_ok hga "content" hinv1
    (fun hmm => by have h2 := ha1 hmm; simp at h2)
  have ha2 : a2 ⊆ ["title", "content"] := by
    intro x hx
    rcases List.mem_append.mp (hsub2r hx) with h | h
    · have := ha1 h; simp at this; simp [this]
    · simp at h; simp [h]
  obtain ⟨d3, a3, hs3, hinv3, hsub3l, hsub3r, hc3⟩ := migStep_ok hga "created_at" hinv2
    (fun hmm => by have h2 := ha2 hmm; simp at h2)
  have ha3 : a3 ⊆ ["title", "content", "created_at"] := by
    intro x hx
    rcases List.mem_append.mp (hsub3r hx) with h | h
    · have h2 := ha2 h; simp at h2; rcases h2 with h2 | h2 <;> simp [h2]
    · simp at h; simp [h]
  obtain ⟨d4, a4, hs4, hinv4, hsub4l, hsub4r, hc4⟩ := migStep_ok hga "updated_at" hinv3
    (fun hmm => by have h2 := ha3 hmm; simp at h2)
  have ha4 : a4 ⊆ ["title", "content", "created_at", "updated_at"] := by
    intro x hx
    rcases List.mem_append.mp (hsub4r hx) with h | h
    · have h2 := ha3 h; simp at h2; rcases h2 with h2 | h2 | h2 <;> simp [h2]
    · simp at h; simp [h]
  refine ⟨d4, a4, ?_, hinv4, ha4, ?_⟩
  · unfold ensureNotesSchema
    rw [if_neg (by simp [hex])]
    show migStep (get_existing_columns db "notes") "updated_at"
      (migStep (get_existing_columns db "notes") "created_at"
        (migStep (get_existing_columns db "notes") "content"
          (migStep (get_existing_columns db "notes") "title" (.ok db)))) = .ok d4
    rw [hs1, hs2, hs3, hs4]
  · intro c hcmem
    simp only [List.mem_cons, List.not_mem_nil, or_false] at hcmem
    rcases hcmem with rfl | rfl | rfl | rfl
    · rcases hc1 with h | h
      · exact Or.inl h
      · exact Or.inr (hsub4l (hsub3l (hsub2l h)))
    · rcases hc2 with h | h
      · exact Or.inl h
      · exact Or.inr (hsub4l (hsub3l h))
    · rcases hc3 with h | h
      · exact Or.inl h
      · exact Or.inr (hsub4l h)
    · rcases hc4 with h | h
      · exact Or.inl h
      · exact Or.inr h

/-! ## Seeding and run decomposition lemmas -/

theorem table_exists_updateTable (db : Database) (n : String) (f : Table → Table)
    (hf : ∀ t, (f t).name = t.name) (m : String) :
    table_exists (updateTable db n f) m = table_exists db m := by
  simp [table_exists, getTable_updateTable db n f hf m]

theorem seedOne_ok_shape {now : Nat} {kv : String × String} {db db2 : Database}
    (h : seedOne now kv db = .ok db2) :
    ∃ f : Table → Table, db2 = updateTable db "app_info" f ∧
      (∀ t, (f t).name = t.name) ∧ (∀ t, (f t).columns = t.columns) ∧
      (∀ t, (f t).seq = t.seq + 1) := by
  unfold seedOne insertOrReplace at h
  split at h
  · exact absurd h (by simp)
  · split at h
    · exact absurd h (by simp)
    · dsimp only [] at h
      split at h
      · exact absurd h (by simp)
      · exact ⟨_, (Except.ok.inj h).symm, fun _ => rfl, fun _ => rfl, fun _ => rfl⟩

theorem seedOne_getTable_ne {now : Nat} {kv : String × String} {db db2 : Database}
    (h : seedOne now kv db = .ok db2) {m : String} (hm : m ≠ "app_info") :
    getTable db2 m = getTable db m := by
  obtain ⟨f, rfl, hfn, _, _⟩ := seedOne_ok_shape h
  exact getTable_updateTable_ne hfn hm

theorem seedAll_ok {now : Nat} {db db4 : Database} (h : seedAll now db = .ok db4) :
    ∃ d1 d2 d3,
      seedOne now ("project_name", "database") db = .ok d1 ∧
      seedOne now ("version", "0.1.0") d1 = .ok d2 ∧
      seedOne now ("author", "John Doe") d2 = .ok d3 ∧
      seedOne now ("description", "") d3 = .ok db4 := by
  unfold seedAll at h
  cases h1 : seedOne now ("project_name", "database") db with
  | error e =>
    simp [bindSt, Except.bind, h1] at h
  | ok d1 =>
    rw [show bindSt (.ok db) (seedOne now ("project_name", "database"))
        = .ok d1 by simp [bindSt, Except.bind, h1]] at h
    cases h2 : seedOne now ("version", "0.1.0") d1 with
    | error e =>
      simp [bindSt, Except.bind, h2] at h
    | ok d2 =>
      rw [show bindSt (.ok d1) (seedOne now ("version", "0.1.0"))
          = .ok d2 by simp [bindSt, Except.bind, h2]] at h
      cases h3 : seedOne now ("author", "John Doe") d2 with
      | error e =>
        simp [bindSt, Except.bind, h3] at h
      | ok d3 =>
        rw [show bindSt (.ok d2) (seedOne now ("author", "John Doe"))
            = .ok d3 by simp [bindSt, Except.bind, h3]] at h
        cases h4 : seedOne now ("description", "") d3 with
        | error e =>
          simp [bindSt, Except.bind, h4] at h
        | ok dx =>
          rw [show bindSt (.ok d3) (seedOne now ("description", ""))
              = .ok dx by simp [bindSt, Except.bind, h4]] at h
          simp [bindSt, Except.bind] at h
          exact ⟨d1, d2, d3, rfl, h2, h3, by rw [h4, h]⟩

theorem converge_ok {now : Nat} {db dbf : Database} (h : converge now db = .ok dbf) :
    ∃ d3, ensureNotesSchema (createTableIfNotExists
        (createTableIfNotExists db "app_info" appInfoCols) "users" usersCols) = .ok d3 ∧
      seedAll now d3 = .ok dbf := by
  unfold converge runConverge at h
  cases he : ensureNotesSchema (createTableIfNotExists
      (createTableIfNotExists db "app_info" appInfoCols) "users" usersCols) with
  | error p => rw [he] at h; exact absurd h (by simp)
  | ok d3 =>
    rw [he] at h
    simp only [] at h
    cases hs : seedAll now d3 with
    | error p => rw [hs] at h; exact absurd h (by cases p; simp)
    | ok d4 =>
      rw [hs] at h
      simp [commitConn] at h
      exact ⟨d3, rfl, by rw [hs, h]⟩

/-! ## Concrete databases used as inputs -/

/-- The empty database a fresh `myapp.db` file starts from. -/
def emptyDb : Database := []

/-- A pre-existing database whose `app_info` table lacks the `key`
column (so the seeding statements fail after all DDL has run). -/
def badDb : Database :=
  [⟨"app_info", [⟨"info", "TEXT", false, false, false, none⟩], [], 0⟩]

/-- `badDb` after the three DDL statements of the batch: `app_info`
untouched (CREATE IF NOT EXISTS is a no-op), `users` and `notes`
freshly created. -/
def badDbAfterDDL : Database :=
  [⟨"app_info", [⟨"info", "TEXT", false, false, false, none⟩], [], 0⟩,
   ⟨"users", usersCols, [], 0⟩, ⟨"notes", notesCols, [], 0⟩]

/-- A pre-existing `notes` table with a single column `foo` — in
particular with no `id` column. -/
def notesFooDb : Database :=
  [⟨"notes", [⟨"foo", "TEXT", false, false, false, none⟩], [], 0⟩]

/-! ## Claim C1 -/

/-- C1, counterexample: running the convergence sequence twice against
an empty database does not yield the same `app_info` table contents as
running it once — even at the same `CURRENT_TIMESTAMP`, the second run's
`INSERT OR REPLACE` statements replace the four seeded rows with fresh
autoincrement ids (5..8 instead of 1..4). -/
theorem C1_counterexample :
    ((converge 0 emptyDb).bind (converge 0)).toOption.map appInfoRows
      ≠ (converge 0 emptyDb).toOption.map appInfoRows := by decide

/-- The `app_info` rows a run against the empty database seeds at
timestamp `t`: autoincrement ids 1..4 and the four key/value pairs. -/
def freshAppRows (t : Nat) : List (List Value) :=
  [[Value.int 1, Value.text "project_name", Value.text "database", Value.ts t],
   [Value.int 2, Value.text "version", Value.text "0.1.0", Value.ts t],
   [Value.int 3, Value.text "author", Value.text "John Doe", Value.ts t],
   [Value.int 4, Value.text "description", Value.text "", Value.ts t]]

/-- The database a single run at timestamp `t` makes of the empty one. -/
def freshDb (t : Nat) : Database :=
  [⟨"app_info", appInfoCols, freshAppRows t, 4⟩,
   ⟨"users", usersCols, [], 0⟩, ⟨"notes", notesCols, [], 0⟩]

/-- The `app_info` rows after a second run at timestamp `t`: the
`INSERT OR REPLACE` statements have replaced each seeded row by a fresh
one with a new autoincrement id (5..8) and the new timestamp. -/
def reseededAppRows (t : Nat) : List (List Value) :=
  [[Value.int 5, Value.text "project_name", Value.text "database", Value.ts t],
   [Value.int 6, Value.text "version", Value.text "0.1.0", Value.ts t],
   [Value.int 7, Value.text "author", Value.text "John Doe", Value.ts t],
   [Value.int 8, Value.text "description", Value.text "", Value.ts t]]

/-- The database after a second run at timestamp `t` on `freshDb t1`. -/
def twiceDb (t : Nat) : Database :=
  [⟨"app_info", appInfoCols, reseededAppRows t, 8⟩,
   ⟨"users", usersCols, [], 0⟩, ⟨"notes", notesCols, [], 0⟩]

set_option maxHeartbeats 1000000 in
/-- C1, amended: running the convergence sequence twice against an
empty database yields the same final schema (every table's name and
columns), the same `app_info` (key, value) contents, and identical
`users` and `notes` tables, as running it once; only the `id` and
`created_at` columns of the re-seeded `app_info` rows (and the
autoincrement counter) differ between the two runs. -/
theorem C1_amended_idempotent_up_to_rowids (t1 t2 : Nat) :
    ∃ db1 db2, converge t1 emptyDb = .ok db1 ∧ converge t2 db1 = .ok db2 ∧
      schemaOf db2 = schemaOf db1 ∧
      appInfoKV db2 = appInfoKV db1 ∧
      getTable db2 "users" = getTable db1 "users" ∧
      getTable db2 "notes" = getTable db1 "notes" :=
  ⟨freshDb t1, twiceDb t2, rfl, rfl, rfl, rfl, rfl, rfl⟩

/-! ## Claim C2 -/

/-- C2, counterexample: against `badDb` (an `app_info` table without a
`key` column) the run fails at the first seeding statement, before the
final commit — yet the `users` and `notes` tables created by the run's
DDL statements persist, because the sqlite3 module executes DDL in
autocommit mode when no transaction is open. -/
theorem C2_counterexample :
    (converge 0 badDb).toOption = none ∧
    table_exists badDb "users" = false ∧
    table_exists (persistedAfter 0 badDb) "users" = true ∧
    table_exists badDb "notes" = false ∧
    table_exists (persistedAfter 0 badDb) "notes" = true := by decide

/-- C2, amended: only the data changes (the seed upserts) are governed
by the single `conn.commit()` at the end of the batch — a failure before
that commit persists no seeded row; the schema statements, however, run
in autocommit mode (no transaction is open when they execute), so
tables created before the failure persist even though the commit is
never reached. -/
theorem C2_amended_dml_transactional_ddl_autocommit (t : Nat) :
    ∃ e, runConverge t badDb = .error (⟨badDbAfterDDL, some badDbAfterDDL⟩, e) ∧
      persistedAfter t badDb = badDbAfterDDL ∧
      appInfoRows (persistedAfter t badDb) = appInfoRows badDb :=
  ⟨_, rfl, rfl, rfl⟩

/-! ## Claim C7 -/

/-- C7: with an existing file that is not a valid database, the
accessibility probe reports a warning (and only then: neither an absent
file nor a valid database produces one), and the script still proceeds
to attempt the convergence batch — whose first statement then fails
inside the batch with nothing persisted; the probe itself aborts
nothing. -/
theorem C7_corrupt_file_tolerance (t : Nat) (db : Database) :
    (scriptRun t .corrupt).1.isSome = true ∧
    (scriptRun t .corrupt).2 = .error (⟨emptyDb, none⟩, "file is not a database") ∧
    (scriptRun t (.valid db)).1 = none ∧
    (scriptRun t (.valid db)).2 = runConverge t db ∧
    (scriptRun t .absent).1 = none ∧
    (scriptRun t .absent).2 = runConverge t emptyDb :=
  ⟨rfl, rfl, rfl, rfl, rfl, rfl⟩

/-! ## Claim C8 -/

/-- C8: `_get_existing_columns` is total — it returns the empty set for
an absent table (it never fails), and for a present table exactly the
names of its currently defined columns. -/
theorem C8_existing_columns_total (db : Database) (n : String) :
    (table_exists db n = false → get_existing_columns db n = []) ∧
    (∀ tb, getTable db n = some tb →
      get_existing_columns db n = tb.columns.map ColumnDef.name) := by
  constructor
  · intro h
    unfold get_existing_columns
    cases hg : getTable db n with
    | none => rfl
    | some tb => rw [table_exists, hg] at h; simp at h
  · intro tb hg
    simp [get_existing_columns, hg]

/-- C8, witness: the two cases of `C8_existing_columns_total` at
concrete inputs — an absent table yields the empty set, a present one
its exact column names. -/
theorem C8_existing_columns_total_witness :
    get_existing_columns emptyDb "users" = [] ∧
    get_existing_columns badDb "app_info" = ["info"] := by
  refine ⟨(C8_existing_columns_total emptyDb "users").1 (by decide), ?_⟩
  have h := (C8_existing_columns_total badDb "app_info").2
    ⟨"app_info", [⟨"info", "TEXT", false, false, false, none⟩], [], 0⟩ (by decide)
  simpa using h

/-! ## Claim C3, counterexample -/

/-- C3, counterexample: for a pre-existing `notes` table that lacks the
`id` column (here: a single column `foo`), the run succeeds but the
migration path never adds `id` — after convergence the live `notes`
table still has no `id` column, so not every Schema Descriptor column
exists. -/
theorem C3_counterexample :
    ((converge 0 notesFooDb).toOption.map
      (fun db => (get_existing_columns db "notes").contains "id")) = some false := by
  decide

/-! ## Preservation lemmas through the whole run -/

theorem getTable_createTIN_of_some {db : Database} {n m : String} {cols : List ColumnDef}
    {tb0 : Table} (hga : getTable db n = some tb0) :
    getTable (createTableIfNotExists db m cols) n = some tb0 := by
  by_cases hmn : n = m
  · subst hmn
    have hex : table_exists db n = true := by simp [table_exists, hga]
    rw [createTIN_of_exists hex]
    exact hga
  · rw [getTable_createTIN_ne hmn]
    exact hga

theorem seedOne_columns {now : Nat} {kv : String × String} {db db2 : Database}
    (h : seedOne now kv db = .ok db2) {n : String} {tb0 : Table}
    (hga : getTable db n = some tb0) :
    ∃ tb, getTable db2 n = some tb ∧ tb.columns = tb0.columns ∧ tb.name = tb0.name := by
  obtain ⟨f, rfl, hfn, hfc, _⟩ := seedOne_ok_shape h
  by_cases hn : n = "app_info"
  · subst hn
    rw [getTable_updateTable_self hfn hga]
    exact ⟨f tb0, rfl, hfc tb0, hfn tb0⟩
  · rw [getTable_updateTable_ne hfn hn]
    exact ⟨tb0, hga, rfl, rfl⟩

theorem seedAll_columns {now : Nat} {db db4 : Database}
    (h : seedAll now db = .ok db4) {n : String} {tb0 : Table}
    (hga : getTable db n = some tb0) :
    ∃ tb, getTable db4 n = some tb ∧ tb.columns = tb0.columns ∧ tb.name = tb0.name := by
  obtain ⟨d1, d2, d3, h1, h2, h3, h4⟩ := seedAll_ok h
  obtain ⟨t1, hg1, hc1, hn1⟩ := seedOne_columns h1 hga
  obtain ⟨t2, hg2, hc2, hn2⟩ := seedOne_columns h2 hg1
  obtain ⟨t3, hg3, hc3, hn3⟩ := seedOne_columns h3 hg2
  obtain ⟨t4, hg4, hc4, hn4⟩ := seedOne_columns h4 hg3
  exact ⟨t4, hg4, by rw [hc4, hc3, hc2, hc1], by rw [hn4, hn3, hn2, hn1]⟩

theorem seedAll_getTable_ne {now : Nat} {db db4 : Database}
    (h : seedAll now db = .ok db4) {m : String} (hm : m ≠ "app_info") :
    getTable db4 m = getTable db m := by
  obtain ⟨d1, d2, d3, h1, h2, h3, h4⟩ := seedAll_ok h
  rw [seedOne_getTable_ne h4 hm, seedOne_getTable_ne h3 hm,
    seedOne_getTable_ne h2 hm, seedOne_getTable_ne h1 hm]

/-- The database the two CREATE TABLE IF NOT EXISTS statements leave. -/
def afterCreates (db : Database) : Database :=
  createTableIfNotExists (createTableIfNotExists db "app_info" appInfoCols) "users" usersCols

theorem getTable_afterCreates_notes (db : Database) :
    getTable (afterCreates db) "notes" = getTable db "notes" := by
  unfold afterCreates
  rw [getTable_createTIN_ne (by decide), getTable_createTIN_ne (by decide)]

theorem table_exists_afterCreates_notes (db : Database) :
    table_exists (afterCreates db) "notes" = table_exists db "notes" := by
  simp [table_exists, getTable_afterCreates_notes]

/-- On success, the final database relates to the input through the
notes-schema step and the seeding step. -/
theorem converge_ok_decomp {now : Nat} {db dbf : Database}
    (h : converge now db = .ok dbf) :
    ∃ d3, ensureNotesSchema (afterCreates db) = .ok d3 ∧ seedAll now d3 = .ok dbf :=
  converge_ok h

/-! ## Claim C3, amended theorem -/

/-- C3, amended: after any successful convergence run the live `notes`
table contains every Schema Descriptor column except possibly `id`:
title, content, created_at and updated_at are always present; `id` is
guaranteed only when `notes` did not pre-exist (create path), and on the
migration path it is present exactly when the pre-existing table already
had it — the migration never adds an `id` column. -/
theorem C3_amended_descriptor_columns_except_id {t : Nat} {db db2 : Database}
    (h : converge t db = .ok db2) :
    ∃ tb, getTable db2 "notes" = some tb ∧
      (∀ c ∈ (["title", "content", "created_at", "updated_at"] : List String),
        c ∈ tb.columns.map ColumnDef.name) ∧
      (table_exists db "notes" = false → "id" ∈ tb.columns.map ColumnDef.name) ∧
      (∀ tb0, getTable db "notes" = some tb0 →
        ("id" ∈ tb.columns.map ColumnDef.name ↔ "id" ∈ tb0.columns.map ColumnDef.name)) := by
  obtain ⟨d3, he, hs⟩ := converge_ok_decomp h
  cases hex : table_exists db "notes" with
  | false =>
    have hex2 : table_exists (afterCreates db) "notes" = false := by
      rw [table_exists_afterCreates_notes, hex]
    rw [ensureNotes_absent_spec hex2] at he
    have hd3 : d3 = afterCreates db ++ [⟨"notes", notesCols, [], 0⟩] :=
      (Except.ok.inj he).symm
    have hg3 : getTable d3 "notes" = some ⟨"notes", notesCols, [], 0⟩ := by
      rw [hd3, getTable_append_single]
      have hnone : getTable (afterCreates db) "notes" = none := by
        have := table_exists_afterCreates_notes db
        rw [hex] at this
        simpa [table_exists, Option.isSome_iff_exists] using this
      simp [hnone]
    have hg2 : getTable db2 "notes" = some ⟨"notes", notesCols, [], 0⟩ := by
      rw [seedAll_getTable_ne hs (by decide)]
      exact hg3
    refine ⟨_, hg2, by decide, fun _ => by decide, ?_⟩
    intro tb0 hga0
    rw [table_exists, hga0] at hex
    simp at hex
  | true =>
    obtain ⟨tb0, hga0⟩ : ∃ tb0, getTable db "notes" = some tb0 := by
      rw [table_exists] at hex
      exact Option.isSome_iff_exists.mp hex
    have hgac : getTable (afterCreates db) "notes" = some tb0 := by
      rw [getTable_afterCreates_notes]
      exact hga0
    obtain ⟨d4, added, hens, ⟨hoth, hnotes⟩, hsub, hcov⟩ := ensureNotes_exists_spec hgac
    rw [hens] at he
    have hd3 : d3 = d4 := (Except.ok.inj he).symm
    subst hd3
    have hg2 : getTable db2 "notes" = some
        ⟨tb0.name, tb0.columns ++ added.map textColumn,
         tb0.rows.map (fun r => r ++ List.replicate added.length Value.null), tb0.seq⟩ := by
      rw [seedAll_getTable_ne hs (by decide)]
      exact hnotes
    have hnames : (tb0.columns ++ added.map textColumn).map ColumnDef.name
        = tb0.columns.map ColumnDef.name ++ added := by
      rw [List.map_append, List.map_map]
      congr 1
      simp [Function.comp_def, textColumn]
    refine ⟨_, hg2, ?_, ?_, ?_⟩
    · intro c hc
      show c ∈ (tb0.columns ++ added.map textColumn).map ColumnDef.name
      rw [hnames, List.mem_append]
      exact hcov c hc
    · intro hfalse
      exact absurd hfalse (by simp)
    · intro tb0x hga0x
      rw [hga0] at hga0x
      have heq0 : tb0x = tb0 := (Option.some.inj hga0x).symm
      rw [heq0]
      show "id" ∈ (tb0.columns ++ added.map textColumn).map ColumnDef.name
        ↔ "id" ∈ tb0.columns.map ColumnDef.name
      rw [hnames, List.mem_append]
      constructor
      · intro hid
        rcases hid with hid | hid
        · exact hid
        · have := hsub hid
          simp at this
      · exact Or.inl

/-- Create path, end to end: when `notes` does not pre-exist, a
successful run leaves it with exactly the full descriptor schema. -/
theorem converge_notes_create {t : Nat} {db db2 : Database}
    (h : converge t db = .ok db2) (hex : table_exists db "notes" = false) :
    getTable db2 "notes" = some ⟨"notes", notesCols, [], 0⟩ := by
  obtain ⟨d3, he, hs⟩ := converge_ok_decomp h
  have hex2 : table_exists (afterCreates db) "notes" = false := by
    rw [table_exists_afterCreates_notes, hex]
  rw [ensureNotes_absent_spec hex2] at he
  have hd3 : d3 = afterCreates db ++ [⟨"notes", notesCols, [], 0⟩] :=
    (Except.ok.inj he).symm
  have hg3 : getTable d3 "notes" = some ⟨"notes", notesCols, [], 0⟩ := by
    rw [hd3, getTable_append_single]
    have hnone : getTable (afterCreates db) "notes" = none := by
      have h2 := table_exists_afterCreates_notes db
      rw [hex] at h2
      simpa [table_exists, Option.isSome_iff_exists] using h2
    simp [hnone]
  rw [seedAll_getTable_ne hs (by decide)]
  exact hg3

/-- Migration path, end to end: when `notes` pre-exists, a successful
run leaves its name, sequence and rows-in-order intact, appends the
added columns (plain TEXT) at the end, and pads every pre-existing row
with NULLs; the added names are among the four migrated names, and
together with the pre-existing names they cover all four. -/
theorem converge_notes_migrate {t : Nat} {db db2 : Database}
    (h : converge t db = .ok db2) {tb0 : Table}
    (hga0 : getTable db "notes" = some tb0) :
    ∃ added, getTable db2 "notes" = some
        ⟨tb0.name, tb0.columns ++ added.map textColumn,
         tb0.rows.map (fun r => r ++ List.replicate added.length Value.null), tb0.seq⟩ ∧
      added ⊆ ["title", "content", "created_at", "updated_at"] ∧
      (∀ c ∈ (["title", "content", "created_at", "updated_at"] : List String),
        c ∈ tb0.columns.map ColumnDef.name ∨ c ∈ added) := by
  obtain ⟨d3, he, hs⟩ := converge_ok_decomp h
  have hgac : getTable (afterCreates db) "notes" = some tb0 := by
    rw [getTable_afterCreates_notes]
    exact hga0
  obtain ⟨d4, added, hens, ⟨hoth, hnotes⟩, hsub, hcov⟩ := ensureNotes_exists_spec hgac
  rw [hens] at he
  have hd3 : d3 = d4 := (Except.ok.inj he).symm
  subst hd3
  refine ⟨added, ?_, hsub, hcov⟩
  rw [seedAll_getTable_ne hs (by decide)]
  exact hnotes

/-! ## Claim C4 -/

/-- C4: the constraint policy differs between the two paths — when
`notes` does not exist it is created with the full descriptor, whose
title, content, created_at and updated_at columns are all declared NOT
NULL; when `notes` already exists, every column the run adds (any live
column whose name the pre-existing table lacked) is a plain TEXT column
without a not-null constraint and without a default. -/
theorem C4_constraint_policy_split {t : Nat} {db db2 : Database}
    (h : converge t db = .ok db2) :
    (∀ c ∈ notesCols, c.name ≠ "id" → c.notnull = true) ∧
    (table_exists db "notes" = false →
      getTable db2 "notes" = some ⟨"notes", notesCols, [], 0⟩) ∧
    (∀ tb0 tb, getTable db "notes" = some tb0 → getTable db2 "notes" = some tb →
      ∀ c ∈ tb.columns, c.name ∉ tb0.columns.map ColumnDef.name →
        c.notnull = false ∧ c.dflt = none ∧ c.type = "TEXT") := by
  refine ⟨by decide, fun hex => converge_notes_create h hex, ?_⟩
  intro tb0 tb hga0 hg2 c hc hnm
  obtain ⟨added, hg2x, _, _⟩ := converge_notes_migrate h hga0
  rw [hg2] at hg2x
  have htb : tb = ⟨tb0.name, tb0.columns ++ added.map textColumn,
      tb0.rows.map (fun r => r ++ List.replicate added.length Value.null), tb0.seq⟩ :=
    Option.some.inj hg2x
  rw [htb] at hc
  simp only [List.mem_append] at hc
  rcases hc with hc | hc
  · exact absurd (List.mem_map_of_mem ColumnDef.name hc) hnm
  · obtain ⟨x, _, hx⟩ := List.mem_map.mp hc
    rw [← hx]
    exact ⟨rfl, rfl, rfl⟩

/-- The `notes` columns after migrating `notesFooDb`. -/
def fooMigratedCols : List ColumnDef :=
  [⟨"foo", "TEXT", false, false, false, none⟩, textColumn "title",
   textColumn "content", textColumn "created_at", textColumn "updated_at"]

/-- `notesFooDb` after a run at timestamp 0. -/
def fooConverged : Database :=
  [⟨"notes", fooMigratedCols, [], 0⟩,
   ⟨"app_info", appInfoCols, freshAppRows 0, 4⟩,
   ⟨"users", usersCols, [], 0⟩]

/-- C4, witness: at `notesFooDb` — the descriptor's non-id columns are
NOT NULL, and every column the migration added to the live `notes`
table (all of them but `foo`) is nullable TEXT with no default. -/
theorem C4_constraint_policy_split_witness :
    (∀ c ∈ notesCols, c.name ≠ "id" → c.notnull = true) ∧
    (∀ c ∈ fooMigratedCols,
      c.name ∉ ["foo"] → c.notnull = false ∧ c.dflt = none ∧ c.type = "TEXT") := by
  have h := C4_constraint_policy_split
    (show converge 0 notesFooDb = .ok fooConverged from rfl)
  refine ⟨h.1, ?_⟩
  intro c hc hnm
  exact h.2.2 ⟨"notes", [⟨"foo", "TEXT", false, false, false, none⟩], [], 0⟩
    ⟨"notes", fooMigratedCols, [], 0⟩
    (show getTable notesFooDb "notes" = some _ from rfl)
    (show getTable fooConverged "notes" = some _ from rfl)
    c hc (by simpa using hnm)

/-- C3 (amended), witness: at `notesFooDb` (a pre-existing `notes` with
only a `foo` column) the four non-id descriptor columns are present
after the run and `id` is present iff the pre-existing table had it. -/
theorem C3_amended_witness :
    ∃ tb, getTable fooConverged "notes" = some tb ∧
      (∀ c ∈ (["title", "content", "created_at", "updated_at"] : List String),
        c ∈ tb.columns.map ColumnDef.name) ∧
      (table_exists notesFooDb "notes" = false → "id" ∈ tb.columns.map ColumnDef.name) ∧
      (∀ tb0, getTable notesFooDb "notes" = some tb0 →
        ("id" ∈ tb.columns.map ColumnDef.name ↔ "id" ∈ tb0.columns.map ColumnDef.name)) :=
  C3_amended_descriptor_columns_except_id
    (show converge 0 notesFooDb = .ok fooConverged from rfl)

/-! ## Claim C5 -/

/-- C5: additive-only migration with no data loss — for any pre-existing
`notes` table, a successful run keeps its column list as a prefix of the
new one (no column dropped or renamed), keeps every pre-existing row in
order with its original values in the original columns, pads each such
row with NULL in every added column, and removes no row. -/
theorem C5_additive_no_data_loss {t : Nat} {db db2 : Database}
    (h : converge t db = .ok db2) {tb0 : Table}
    (hga0 : getTable db "notes" = some tb0) :
    ∃ (tb : Table) (added : List String), getTable db2 "notes" = some tb ∧
      tb0.columns <+: tb.columns ∧
      tb.columns = tb0.columns ++ added.map textColumn ∧
      tb.rows = tb0.rows.map (fun r => r ++ List.replicate added.length Value.null) ∧
      ∀ r ∈ tb0.rows, (r ++ List.replicate added.length Value.null) ∈ tb.rows := by
  obtain ⟨added, hg, _, _⟩ := converge_notes_migrate h hga0
  exact ⟨_, added, hg, ⟨added.map textColumn, rfl⟩, rfl, rfl,
    fun r hr => List.mem_map_of_mem _ hr⟩

/-- The §8 scenario input: a `notes` table with only `(id, title)` and
one existing row. -/
def notesIdTitleDb : Database :=
  [⟨"notes", [⟨"id", "INTEGER", false, true, false, none⟩,
              ⟨"title", "TEXT", true, false, false, none⟩],
    [[Value.int 1, Value.text "First note"]], 1⟩]

/-- `notesIdTitleDb` after a run at timestamp 0: all four required
columns exist, the row's title is unchanged, and its content,
created_at and updated_at are NULL. -/
def idTitleConverged : Database :=
  [⟨"notes", [⟨"id", "INTEGER", false, true, false, none⟩,
              ⟨"title", "TEXT", true, false, false, none⟩, textColumn "content",
              textColumn "created_at", textColumn "updated_at"],
    [[Value.int 1, Value.text "First note", Value.null, Value.null, Value.null]], 1⟩,
   ⟨"app_info", appInfoCols, freshAppRows 0, 4⟩,
   ⟨"users", usersCols, [], 0⟩]

/-- C5, witness: the §8 scenario — `notes` pre-populated with only
`(id, title)` and one row keeps that row's title after convergence,
with NULL in the three added columns. -/
theorem C5_additive_no_data_loss_witness :
    ∃ (tb : Table) (added : List String), getTable idTitleConverged "notes" = some tb ∧
      [⟨"id", "INTEGER", false, true, false, none⟩,
       ⟨"title", "TEXT", true, false, false, none⟩] <+: tb.columns ∧
      tb.columns = [⟨"id", "INTEGER", false, true, false, none⟩,
        ⟨"title", "TEXT", true, false, false, none⟩] ++ added.map textColumn ∧
      tb.rows = [[Value.int 1, Value.text "First note"]].map
        (fun r => r ++ List.replicate added.length Value.null) ∧
      ∀ r ∈ [[Value.int 1, Value.text "First note"]],
        (r ++ List.replicate added.length Value.null) ∈ tb.rows :=
  C5_additive_no_data_loss
    (show converge 0 notesIdTitleDb = .ok idTitleConverged from rfl)
    (show getTable notesIdTitleDb "notes" = some
      ⟨"notes", [⟨"id", "INTEGER", false, true, false, none⟩,
                 ⟨"title", "TEXT", true, false, false, none⟩],
       [[Value.int 1, Value.text "First note"]], 1⟩ from rfl)

/-! ## Claim C10 -/

/-- C10: only `notes` is structurally migrated — every pre-existing
table other than `notes` (in particular `app_info` and `users`) keeps
exactly its column list (and name) across a successful run, whatever
that column list is. -/
theorem C10_only_notes_structurally_migrated {t : Nat} {db db2 : Database}
    (h : converge t db = .ok db2) {n : String} (hn : n ≠ "notes")
    {tb0 : Table} (hga : getTable db n = some tb0) :
    ∃ tb, getTable db2 n = some tb ∧ tb.columns = tb0.columns ∧ tb.name = tb0.name := by
  obtain ⟨d3, he, hs⟩ := converge_ok_decomp h
  have hgc : getTable (afterCreates db) n = some tb0 :=
    getTable_createTIN_of_some (getTable_createTIN_of_some hga)
  have hg3 : getTable d3 n = some tb0 := by
    cases hex : table_exists (afterCreates db) "notes" with
    | false =>
      rw [ensureNotes_absent_spec hex] at he
      have hd3 : d3 = afterCreates db ++ [⟨"notes", notesCols, [], 0⟩] :=
        (Except.ok.inj he).symm
      rw [hd3, getTable_append_single, hgc]
      have hns : ¬ ("notes" : String) = n := fun hh => hn hh.symm
      have hbeq : (("notes" : String) == n) = false := by simp [hns]
      simp [hbeq]
    | true =>
      obtain ⟨tb0n, hgan⟩ : ∃ tb0n, getTable (afterCreates db) "notes" = some tb0n := by
        rw [table_exists] at hex
        exact Option.isSome_iff_exists.mp hex
      obtain ⟨d4, added, hens, ⟨hoth, _⟩, _, _⟩ := ensureNotes_exists_spec hgan
      rw [hens] at he
      have hd3 : d3 = d4 := (Except.ok.inj he).symm
      subst hd3
      rw [hoth n hn]
      exact hgc
  exact seedAll_columns hs hg3

/-- C10, witness: a second run over the state a first run left — the
pre-existing `users` table keeps exactly its columns. -/
theorem C10_only_notes_structurally_migrated_witness :
    ∃ tb, getTable (twiceDb 1) "users" = some tb ∧
      tb.columns = usersCols ∧ tb.name = "users" :=
  C10_only_notes_structurally_migrated
    (show converge 1 (freshDb 0) = .ok (twiceDb 1) from rfl) (by decide)
    (show getTable (freshDb 0) "users" = some ⟨"users", usersCols, [], 0⟩ from rfl)

/-! ## `app_info` seeding: row-level analysis -/

/-- A well-formed `app_info` table carrying the script-declared schema:
the columns are exactly the declared ones (in particular `key` has the
UNIQUE constraint and `id` is the INTEGER PRIMARY KEY), every row has
one value per column, and every rowid is an integer bounded by the
autoincrement sequence — as SQLite maintains for an AUTOINCREMENT
table. -/
def wfAppInfo (tb : Table) : Prop :=
  tb.columns = appInfoCols ∧
  ∀ r ∈ tb.rows, ∃ i kv vv cv, r = [Value.int i, kv, vv, cv] ∧ i ≤ tb.seq

theorem beq_symm_eq {α : Type} [DecidableEq α] (a b : α) : (a == b) = (b == a) := by
  by_cases h : a = b
  · subst h
    rfl
  · rw [beq_eq_false_iff_ne.mpr h, beq_eq_false_iff_ne.mpr (Ne.symm h)]

/-- The row `INSERT OR REPLACE INTO app_info (key, value)` builds on a
well-formed `app_info` table. -/
theorem buildRow_appInfo (now : Nat) (k v : String) {tb : Table}
    (hcols : tb.columns = appInfoCols) :
    buildRow now tb ["key", "value"] [Value.text k, Value.text v]
      = [Value.int (tb.seq + 1), Value.text k, Value.text v, Value.ts now] := by
  unfold buildRow
  rw [hcols]
  rfl

/-- On a well-formed `app_info` table, a row conflicts with the freshly
built seed row exactly when its key cell equals the seeded key. -/
theorem rowConflicts_appInfo (now : Nat) (k v : String) {tb : Table}
    (hcols : tb.columns = appInfoCols) {i : Nat} (hile : i ≤ tb.seq)
    (kv vv cv : Value) :
    rowConflicts tb [Value.int (tb.seq + 1), Value.text k, Value.text v, Value.ts now]
      [Value.int i, kv, vv, cv] = (kv == Value.text k) := by
  have hid : (Value.int (tb.seq + 1) == Value.int i) = false := by
    rw [beq_eq_false_iff_ne]
    intro hh
    have : tb.seq + 1 = i := Value.int.inj hh
    omega
  unfold rowConflicts
  rw [hcols]
  simp only [List.zip, List.zipWith, List.any_cons, List.any_nil]
  rw [hid]
  rw [beq_symm_eq (Value.text k) kv]
  simp

theorem seedOne_spec (now : Nat) (k v : String) {db : Database} {tb : Table}
    (hget : getTable db "app_info" = some tb) (hwf : wfAppInfo tb) :
    ∃ db2 tb2, seedOne now (k, v) db = .ok db2 ∧
      getTable db2 "app_info" = some tb2 ∧
      wfAppInfo tb2 ∧ tb2.seq = tb.seq + 1 ∧ tb2.columns = tb.columns ∧
      tb2.rows = tb.rows.filter (fun r => !(r.get? 1 == some (Value.text k)))
        ++ [[Value.int (tb.seq + 1), Value.text k, Value.text v, Value.ts now]] ∧
      (∀ m, m ≠ "app_info" → getTable db2 m = getTable db m) := by
  obtain ⟨hcols, hrows⟩ := hwf
  have hfind : (["key", "value"].find?
      (fun c => !((tb.columns.map ColumnDef.name).contains c))) = none := by
    rw [hcols]
    rfl
  have hnew := buildRow_appInfo now k v hcols
  have hnnv : notNullViolation tb
      [Value.int (tb.seq + 1), Value.text k, Value.text v, Value.ts now] = false := by
    unfold notNullViolation
    rw [hcols]
    rfl
  have hfc : tb.rows.filter (fun r => !rowConflicts tb
        [Value.int (tb.seq + 1), Value.text k, Value.text v, Value.ts now] r)
      = tb.rows.filter (fun r => !(r.get? 1 == some (Value.text k))) := by
    apply List.filter_congr
    intro r hr
    obtain ⟨i, kv, vv, cv, rfl, hile⟩ := hrows r hr
    rw [rowConflicts_appInfo now k v hcols hile]
    have hget1 : ([Value.int i, kv, vv, cv].get? 1) = some kv := rfl
    rw [hget1]
    congr 1
  have hmain : seedOne now (k, v) db = .ok (updateTable db "app_info" (fun t =>
      Table.mk t.name t.columns
        (t.rows.filter (fun r => !rowConflicts t
            [Value.int (tb.seq + 1), Value.text k, Value.text v, Value.ts now] r)
          ++ [[Value.int (tb.seq + 1), Value.text k, Value.text v, Value.ts now]])
        (t.seq + 1))) := by
    unfold seedOne insertOrReplace
    rw [hget]
    simp only [hfind]
    rw [hnew, hnnv]
    simp
  refine ⟨updateTable db "app_info" (fun t =>
      Table.mk t.name t.columns
        (t.rows.filter (fun r => !rowConflicts t
            [Value.int (tb.seq + 1), Value.text k, Value.text v, Value.ts now] r)
          ++ [[Value.int (tb.seq + 1), Value.text k, Value.text v, Value.ts now]])
        (t.seq + 1)),
    Table.mk tb.name tb.columns
      (tb.rows.filter (fun r => !rowConflicts tb
          [Value.int (tb.seq + 1), Value.text k, Value.text v, Value.ts now] r)
        ++ [[Value.int (tb.seq + 1), Value.text k, Value.text v, Value.ts now]])
      (tb.seq + 1),
    hmain, ?_, ?_, rfl, rfl, ?_, ?_⟩
  · apply getTable_updateTable_self
    · intro t
      rfl
    · exact hget
  · constructor
    · exact hcols
    · intro r hr
      have hr2 : r ∈ tb.rows.filter (fun r => !(r.get? 1 == some (Value.text k)))
          ++ [[Value.int (tb.seq + 1), Value.text k, Value.text v, Value.ts now]] := by
        rw [← hfc]
        exact hr
      rw [List.mem_append] at hr2
      rcases hr2 with hr2 | hr2
      · obtain ⟨hmem, _⟩ := List.mem_filter.mp hr2
        obtain ⟨i, kv, vv, cv, hre, hile⟩ := hrows r hmem
        exact ⟨i, kv, vv, cv, hre, Nat.le_succ_of_le hile⟩
      · rw [List.mem_singleton] at hr2
        subst hr2
        exact ⟨tb.seq + 1, _, _, _, rfl, Nat.le_refl _⟩
  · exact congrArg
      (fun l => l ++ [[Value.int (tb.seq + 1), Value.text k, Value.text v, Value.ts now]]) hfc
  · intro m hm
    apply getTable_updateTable_ne
    · intro t
      rfl
    · exact hm

/-- Survival predicate of the seed for key `k`: a row survives the
`OR REPLACE` when its key cell does not hold `text k`. -/
def keeps (k : String) (r : List Value) : Bool :=
  !(r.get? 1 == some (Value.text k))

/-- Effect of the four seeding statements on a well-formed `app_info`
table: the pre-existing rows survive exactly when their key is none of
the four seeded keys (in their original order), followed by the four
fresh seeded rows with consecutive autoincrement ids and the run's
timestamp. -/
theorem seed4_rows {now : Nat} {db d4 : Database} {tb : Table}
    (hget : getTable db "app_info" = some tb) (hwf : wfAppInfo tb)
    (h : seedAll now db = .ok d4) :
    ∃ tb4, getTable d4 "app_info" = some tb4 ∧ wfAppInfo tb4 ∧ tb4.seq = tb.seq + 4 ∧
      tb4.rows =
        ((((tb.rows.filter (keeps "project_name")).filter (keeps "version")).filter
            (keeps "author")).filter (keeps "description"))
        ++ [[Value.int (tb.seq + 1), Value.text "project_name", Value.text "database", Value.ts now],
            [Value.int (tb.seq + 2), Value.text "version", Value.text "0.1.0", Value.ts now],
            [Value.int (tb.seq + 3), Value.text "author", Value.text "John Doe", Value.ts now],
            [Value.int (tb.seq + 4), Value.text "description", Value.text "", Value.ts now]] := by
  obtain ⟨d1, d2, d3, h1, h2, h3, h4⟩ := seedAll_ok h
  obtain ⟨d1x, tb1, e1, g1, w1, s1, c1, r1, o1⟩ :=
    seedOne_spec now "project_name" "database" hget hwf
  have hd1 : d1 = d1x := Except.ok.inj (h1.symm.trans e1)
  subst hd1
  obtain ⟨d2x, tb2x, e2, g2, w2, s2, c2, r2, o2⟩ :=
    seedOne_spec now "version" "0.1.0" g1 w1
  have hd2 : d2 = d2x := Except.ok.inj (h2.symm.trans e2)
  subst hd2
  obtain ⟨d3x, tb3, e3, g3, w3, s3, c3, r3, o3⟩ :=
    seedOne_spec now "author" "John Doe" g2 w2
  have hd3 : d3 = d3x := Except.ok.inj (h3.symm.trans e3)
  subst hd3
  obtain ⟨d4x, tb4, e4, g4, w4, s4, c4, r4, o4⟩ :=
    seedOne_spec now "description" "" g3 w3
  have hd4 : d4 = d4x := Except.ok.inj (h4.symm.trans e4)
  subst hd4
  refine ⟨tb4, g4, w4, by omega, ?_⟩
  rw [r4, r3, r2, r1]
  rw [s3, s2, s1]
  rw [List.filter_append, List.filter_append, List.filter_append]
  rw [List.filter_append, List.filter_append, List.filter_append]
  have e12 : tb.seq + 1 + 1 = tb.seq + 2 := by omega
  have e13 : tb.seq + 1 + 1 + 1 = tb.seq + 3 := by omega
  have e14 : tb.seq + 1 + 1 + 1 + 1 = tb.seq + 4 := by omega
  rw [e12, e13, e14]
  show _ ++ _ = _
  simp only [keeps, List.filter, List.append_assoc]
  rfl

theorem getTable_append_of_some {db : Database} {m : String} {tb : Table} (t : Table)
    (h : getTable db m = some tb) : getTable (db ++ [t]) m = some tb := by
  rw [getTable_append_single, h]
  rfl

/-- The `app_info` table in force when the seeding statements start:
either the pre-existing one (CREATE IF NOT EXISTS and the notes step do
not touch it) or the freshly created empty one. -/
theorem appInfo_at_seeds {db d3 : Database}
    (hens : ensureNotesSchema (afterCreates db) = .ok d3)
    (hwf : ∀ tb, getTable db "app_info" = some tb → wfAppInfo tb) :
    ∃ tbA, getTable d3 "app_info" = some tbA ∧ wfAppInfo tbA ∧
      (∀ tb0, getTable db "app_info" = some tb0 → tbA = tb0) ∧
      (getTable db "app_info" = none → tbA.rows = []) := by
  have hac : ∃ tbA, getTable (afterCreates db) "app_info" = some tbA ∧ wfAppInfo tbA ∧
      (∀ tb0, getTable db "app_info" = some tb0 → tbA = tb0) ∧
      (getTable db "app_info" = none → tbA.rows = []) := by
    cases hex : getTable db "app_info" with
    | some tb0 =>
      refine ⟨tb0, ?_, hwf tb0 hex, fun tb0x hx => Option.some.inj hx,
        fun hn => Option.noConfusion hn⟩
      exact getTable_createTIN_of_some (getTable_createTIN_of_some hex)
    | none =>
      have hexb : table_exists db "app_info" = false := by
        simp [table_exists, hex]
      refine ⟨⟨"app_info", appInfoCols, [], 0⟩, ?_, ⟨rfl, by intro r hr; cases hr⟩,
        fun tb0x hx => Option.noConfusion hx, fun _ => rfl⟩
      unfold afterCreates
      rw [getTable_createTIN_ne (by decide)]
      exact getTable_createTIN_absent hexb
  obtain ⟨tbA, hgA, hwA, hprev, hnone⟩ := hac
  refine ⟨tbA, ?_, hwA, hprev, hnone⟩
  cases hexn : table_exists (afterCreates db) "notes" with
  | false =>
    rw [ensureNotes_absent_spec hexn] at hens
    have hd3 : d3 = afterCreates db ++ [⟨"notes", notesCols, [], 0⟩] :=
      (Except.ok.inj hens).symm
    rw [hd3]
    exact getTable_append_of_some _ hgA
  | true =>
    obtain ⟨tbn, hgn⟩ : ∃ tbn, getTable (afterCreates db) "notes" = some tbn := by
      rw [table_exists] at hexn
      exact Option.isSome_iff_exists.mp hexn
    obtain ⟨d4, added, hens2, ⟨hoth, _⟩, _, _⟩ := ensureNotes_exists_spec hgn
    rw [hens2] at hens
    have hd3 : d3 = d4 := (Except.ok.inj hens).symm
    subst hd3
    rw [hoth "app_info" (by decide)]
    exact hgA

/-! ## Claim C6 -/

/-- C6: upsert semantics of the metadata seeding — after a successful
run over a database whose `app_info` (if present) carries the declared
schema (unique key, integer autoincrement rowids), `app_info` holds
exactly one row for each seeded key, bearing the seeded value
(overwritten if the key pre-existed, inserted otherwise), and every
pre-existing row whose key is not among the seeded keys is still
present. -/
theorem C6_upsert_semantics {t : Nat} {db db2 : Database}
    (h : converge t db = .ok db2)
    (hwf : ∀ tb, getTable db "app_info" = some tb → wfAppInfo tb) :
    ∃ tb2, getTable db2 "app_info" = some tb2 ∧
      (∀ kv ∈ seedPairs, ∃ r2,
        tb2.rows.filter (fun r => r.get? 1 == some (Value.text kv.1)) = [r2] ∧
        r2.get? 2 = some (Value.text kv.2)) ∧
      (∀ tb0, getTable db "app_info" = some tb0 → ∀ r ∈ tb0.rows,
        (∀ kv ∈ seedPairs, r.get? 1 ≠ some (Value.text kv.1)) → r ∈ tb2.rows) := by
  obtain ⟨d3, hens, hs⟩ := converge_ok_decomp h
  obtain ⟨tbA, hgA, hwA, hprev, _⟩ := appInfo_at_seeds hens hwf
  obtain ⟨tb4, hg4, hw4, hs4, hr4⟩ := seed4_rows hgA hwA hs
  refine ⟨tb4, hg4, ?_, ?_⟩
  · intro kv hkv
    have hnil : ∀ k : String,
        (((((tbA.rows.filter (keeps "project_name")).filter (keeps "version")).filter
            (keeps "author")).filter (keeps "description")).filter
          (fun r => r.get? 1 == some (Value.text k))) = []
        ∨ k ∉ (["project_name", "version", "author", "description"] : List String) := by
      intro k
      by_cases hk : k ∈ (["project_name", "version", "author", "description"] : List String)
      · left
        rw [List.filter_eq_nil_iff]
        intro r hr
        have h1 := List.mem_filter.mp hr
        have h2 := List.mem_filter.mp h1.1
        have h3 := List.mem_filter.mp h2.1
        have h4 := List.mem_filter.mp h3.1
        simp only [keeps, Bool.not_eq_eq_eq_not, Bool.not_true] at h1 h2 h3 h4
        simp only [List.mem_cons, List.not_mem_nil, or_false] at hk
        rcases hk with rfl | rfl | rfl | rfl
        · intro hh
          exact beq_eq_false_iff_ne.mp h4.2 (by simpa using hh)
        · intro hh
          exact beq_eq_false_iff_ne.mp h3.2 (by simpa using hh)
        · intro hh
          exact beq_eq_false_iff_ne.mp h2.2 (by simpa using hh)
        · intro hh
          exact beq_eq_false_iff_ne.mp h1.2 (by simpa using hh)
      · right
        exact hk
    have happ : tb4.rows.filter (fun r => r.get? 1 == some (Value.text kv.1))
        = (((((tbA.rows.filter (keeps "project_name")).filter (keeps "version")).filter
            (keeps "author")).filter (keeps "description")).filter
          (fun r => r.get? 1 == some (Value.text kv.1)))
          ++ ([[Value.int (tbA.seq + 1), Value.text "project_name", Value.text "database", Value.ts t],
               [Value.int (tbA.seq + 2), Value.text "version", Value.text "0.1.0", Value.ts t],
               [Value.int (tbA.seq + 3), Value.text "author", Value.text "John Doe", Value.ts t],
               [Value.int (tbA.seq + 4), Value.text "description", Value.text "", Value.ts t]].filter
            (fun r => r.get? 1 == some (Value.text kv.1))) := by
      rw [hr4, List.filter_append]
    simp only [seedPairs, List.mem_cons, List.not_mem_nil, or_false] at hkv
    rcases hkv with rfl | rfl | rfl | rfl
    · refine ⟨[Value.int (tbA.seq + 1), Value.text "project_name", Value.text "database",
        Value.ts t], ?_, rfl⟩
      rw [happ, (hnil "project_name").resolve_right (by simp)]
      rfl
    · refine ⟨[Value.int (tbA.seq + 2), Value.text "version", Value.text "0.1.0",
        Value.ts t], ?_, rfl⟩
      rw [happ, (hnil "version").resolve_right (by simp)]
      rfl
    · refine ⟨[Value.int (tbA.seq + 3), Value.text "author", Value.text "John Doe",
        Value.ts t], ?_, rfl⟩
      rw [happ, (hnil "author").resolve_right (by simp)]
      rfl
    · refine ⟨[Value.int (tbA.seq + 4), Value.text "description", Value.text "",
        Value.ts t], ?_, rfl⟩
      rw [happ, (hnil "description").resolve_right (by simp)]
      rfl
  · intro tb0 hg0 r hr hkeys
    have htb : tbA = tb0 := hprev tb0 hg0
    have hrA : r ∈ tbA.rows := by rw [htb]; exact hr
    have hkeep : ∀ k v2 : String, ((k, v2) ∈ seedPairs) → keeps k r = true := by
      intro k v2 hmem
      unfold keeps
      rw [beq_eq_false_iff_ne.mpr (hkeys (k, v2) hmem)]
      rfl
    rw [hr4]
    apply List.mem_append_left
    refine List.mem_filter.mpr ⟨List.mem_filter.mpr ⟨List.mem_filter.mpr
      ⟨List.mem_filter.mpr ⟨hrA, ?_⟩, ?_⟩, ?_⟩, ?_⟩
    · exact hkeep "project_name" "database" (by simp [seedPairs])
    · exact hkeep "version" "0.1.0" (by simp [seedPairs])
    · exact hkeep "author" "John Doe" (by simp [seedPairs])
    · exact hkeep "description" "" (by simp [seedPairs])

/-- C6, witness: a second run over the database a first run produced —
each of the four keys ends with exactly one row holding its value, and
the survival clause for rows with other keys holds vacuously-checked on
the concrete state. -/
theorem C6_upsert_semantics_witness :
    ∃ tb2, getTable (twiceDb 1) "app_info" = some tb2 ∧
      (∀ kv ∈ seedPairs, ∃ r2,
        tb2.rows.filter (fun r => r.get? 1 == some (Value.text kv.1)) = [r2] ∧
        r2.get? 2 = some (Value.text kv.2)) ∧
      (∀ tb0, getTable (freshDb 0) "app_info" = some tb0 → ∀ r ∈ tb0.rows,
        (∀ kv ∈ seedPairs, r.get? 1 ≠ some (Value.text kv.1)) → r ∈ tb2.rows) := by
  apply C6_upsert_semantics (show converge 1 (freshDb 0) = .ok (twiceDb 1) from rfl)
  intro tb htb
  have h0 : getTable (freshDb 0) "app_info"
      = some (⟨"app_info", appInfoCols, freshAppRows 0, 4⟩ : Table) := rfl
  have heq : (⟨"app_info", appInfoCols, freshAppRows 0, 4⟩ : Table) = tb :=
    Option.some.inj (h0.symm.trans htb)
  rw [← heq]
  refine ⟨rfl, ?_⟩
  intro r hr
  simp only [freshAppRows, List.mem_cons, List.not_mem_nil, or_false] at hr
  rcases hr with rfl | rfl | rfl | rfl
  · exact ⟨1, _, _, _, rfl, by decide⟩
  · exact ⟨2, _, _, _, rfl, by decide⟩
  · exact ⟨3, _, _, _, rfl, by decide⟩
  · exact ⟨4, _, _, _, rfl, by decide⟩

/-! ## Claim C9 -/

/-- C9: re-seeding an existing key does not preserve row identity —
because seeding uses INSERT OR REPLACE, for every `app_info` row whose
key is one of the seeded keys, a run deletes that row and inserts a
fresh one: the old row is gone, and a row with that key and the seeded
value is present whose id is a new (different) autoincrement value and
whose created_at is the current run's timestamp. -/
theorem C9_reseed_not_identity_preserving {t : Nat} {db db2 : Database}
    (h : converge t db = .ok db2) {tb : Table}
    (hget : getTable db "app_info" = some tb) (hwf : wfAppInfo tb)
    {kv : String × String} (hkv : kv ∈ seedPairs)
    {r : List Value} (hr : r ∈ tb.rows) (hkey : r.get? 1 = some (Value.text kv.1)) :
    ∃ tb2 r2, getTable db2 "app_info" = some tb2 ∧
      r ∉ tb2.rows ∧ r2 ∈ tb2.rows ∧
      r2.get? 1 = some (Value.text kv.1) ∧ r2.get? 2 = some (Value.text kv.2) ∧
      r2.get? 0 ≠ r.get? 0 ∧ r2.get? 3 = some (Value.ts t) := by
  obtain ⟨d3, hens, hs⟩ := converge_ok_decomp h
  obtain ⟨tbA, hgA, hwA, hprev, _⟩ := appInfo_at_seeds hens
    (fun tbx hx => (Option.some.inj (hget.symm.trans hx)) ▸ hwf)
  have htbA : tbA = tb := hprev tb hget
  subst htbA
  obtain ⟨i, kvv, vv, cv, hre, hile⟩ := hwA.2 r hr
  obtain ⟨tb4, hg4, hw4, hs4, hr4⟩ := seed4_rows hgA hwA hs
  have hnotold : r ∉ tb4.rows := by
    rw [hr4]
    intro hin
    rcases List.mem_append.mp hin with hin | hin
    · have h1 := List.mem_filter.mp hin
      have h2 := List.mem_filter.mp h1.1
      have h3 := List.mem_filter.mp h2.1
      have h4 := List.mem_filter.mp h3.1
      have hfour : keeps "project_name" r = true ∧ keeps "version" r = true ∧
          keeps "author" r = true ∧ keeps "description" r = true :=
        ⟨h4.2, h3.2, h2.2, h1.2⟩
      have hkfalse : keeps kv.1 r = false := by
        unfold keeps
        rw [hkey, beq_self_eq_true]
        rfl
      simp only [seedPairs, List.mem_cons, List.not_mem_nil, or_false] at hkv
      rcases hkv with rfl | rfl | rfl | rfl
      · rw [hfour.1] at hkfalse; cases hkfalse
      · rw [hfour.2.1] at hkfalse; cases hkfalse
      · rw [hfour.2.2.1] at hkfalse; cases hkfalse
      · rw [hfour.2.2.2] at hkfalse; cases hkfalse
    · simp only [List.mem_cons, List.not_mem_nil, or_false] at hin
      rcases hin with he | he | he | he <;>
        (rw [hre] at he; simp only [List.cons.injEq] at he;
         have := Value.int.inj he.1; omega)
  simp only [seedPairs, List.mem_cons, List.not_mem_nil, or_false] at hkv
  have hr0 : r.get? 0 = some (Value.int i) := by rw [hre]; rfl
  rcases hkv with rfl | rfl | rfl | rfl
  · refine ⟨tb4, [Value.int (tbA.seq + 1), Value.text "project_name", Value.text "database", Value.ts t],
      hg4, hnotold, ?_, rfl, rfl, ?_, rfl⟩
    · rw [hr4]
      exact List.mem_append_right _ (by simp)
    · rw [hr0]
      intro hh
      have := Value.int.inj (Option.some.inj hh)
      omega
  · refine ⟨tb4, [Value.int (tbA.seq + 2), Value.text "version", Value.text "0.1.0", Value.ts t],
      hg4, hnotold, ?_, rfl, rfl, ?_, rfl⟩
    · rw [hr4]
      exact List.mem_append_right _ (by simp)
    · rw [hr0]
      intro hh
      have := Value.int.inj (Option.some.inj hh)
      omega
  · refine ⟨tb4, [Value.int (tbA.seq + 3), Value.text "author", Value.text "John Doe", Value.ts t],
      hg4, hnotold, ?_, rfl, rfl, ?_, rfl⟩
    · rw [hr4]
      exact List.mem_append_right _ (by simp)
    · rw [hr0]
      intro hh
      have := Value.int.inj (Option.some.inj hh)
      omega
  · refine ⟨tb4, [Value.int (tbA.seq + 4), Value.text "description", Value.text "", Value.ts t],
      hg4, hnotold, ?_, rfl, rfl, ?_, rfl⟩
    · rw [hr4]
      exact List.mem_append_right _ (by simp)
    · rw [hr0]
      intro hh
      have := Value.int.inj (Option.some.inj hh)
      omega

/-- C9, witness: the `version` row seeded by a first run (id 2,
created_at of run time 0) is gone after a second run at time 1, replaced
by a fresh row with a different id and the second run's timestamp. -/
theorem C9_reseed_not_identity_preserving_witness :
    ∃ tb2 r2, getTable (twiceDb 1) "app_info" = some tb2 ∧
      [Value.int 2, Value.text "version", Value.text "0.1.0", Value.ts 0] ∉ tb2.rows ∧
      r2 ∈ tb2.rows ∧
      r2.get? 1 = some (Value.text "version") ∧
      r2.get? 2 = some (Value.text "0.1.0") ∧
      r2.get? 0 ≠ [Value.int 2, Value.text "version", Value.text "0.1.0",
        Value.ts 0].get? 0 ∧
      r2.get? 3 = some (Value.ts 1) := by
  refine C9_reseed_not_identity_preserving
    (show converge 1 (freshDb 0) = .ok (twiceDb 1) from rfl)
    (show getTable (freshDb 0) "app_info"
      = some ⟨"app_info", appInfoCols, freshAppRows 0, 4⟩ from rfl)
    ⟨rfl, ?_⟩ (show ("version", "0.1.0") ∈ seedPairs by decide) (by decide) rfl
  intro r hr
  simp only [freshAppRows, List.mem_cons, List.not_mem_nil, or_false] at hr
  rcases hr with rfl | rfl | rfl | rfl
  · exact ⟨1, _, _, _, rfl, by decide⟩
  · exact ⟨2, _, _, _, rfl, by decide⟩
  · exact ⟨3, _, _, _, rfl, by decide⟩
  · exact ⟨4, _, _, _, rfl, by decide⟩

end InitDb
